import Mathlib

/-!
Shallow embedding of the racetrack call-tracking runtime
(src/racetrack/src/tracker.rs).

Payloads of type Box<dyn Any + Send + Sync> are modelled as a pair of a
runtime type identifier and a value code: downcast_ref::<T> succeeds exactly
when the stored type identifier matches the identifier of T, and the
PartialEq comparison performed after a successful downcast compares the
value codes.  The Arc<RwLock<Vec<CallInfo>>> cells are modelled as a heap
(store : List (List CallInfo)) addressed by allocation index, so that the
sharing of one cell between the registry map and an Assertion value is
preserved faithfully: Tracker::assert_that clones the Arc (it does not copy
the vector), and every later check re-reads the cell it points to.
Panicking asserts and expects are modelled by Except.error carrying the
formatted panic message.
-/

/-- Model of one Box<dyn Any + Send + Sync> payload: a runtime type
identifier together with a code for the stored value. -/
structure Payload where
  ty : Nat
  v : Nat
deriving DecidableEq

/-- Model of CallInfo: optional boxed arguments and optional boxed return
value (tracker.rs lines 10-16). -/
structure CallInfo where
  arguments : Option Payload
  returned : Option Payload
deriving DecidableEq

/-- Model of the Tracker state: a heap of RwLock<Vec<CallInfo>> cells
(`store`, addressed by allocation index) and the HashMap from key to the
index of its cell (`map`, an association list with unique keys). -/
structure TrackerState where
  store : List (List CallInfo)
  map : List (String × Nat)
deriving DecidableEq

/-- State produced by Tracker::new(): empty registry, empty heap. -/
def TrackerState.init : TrackerState := ⟨[], []⟩

/-- Lookup of a key in the registry map (HashMap::get). -/
def lookupKey (k : String) : List (String × Nat) → Option Nat
  | [] => none
  | (k2, i) :: rest => if k2 = k then some i else lookupKey k rest

/-- Read of the cell at index `i` of the heap (RwLock::read of the Vec). -/
def nthLog : List (List CallInfo) → Nat → List CallInfo
  | [], _ => []
  | l :: _, 0 => l
  | _ :: rest, n + 1 => nthLog rest n

/-- Replacement of the cell at index `i` of the heap (RwLock::write). -/
def setNth : List (List CallInfo) → Nat → List CallInfo → List (List CallInfo)
  | [], _, _ => []
  | _ :: rest, 0, x => x :: rest
  | l :: rest, n + 1, x => l :: setNth rest n x

/-- Contents of the cell an assertion handle points to. -/
def readItem (s : TrackerState) (i : Nat) : List CallInfo := nthLog s.store i

/-- Model of Tracker::log_call (tracker.rs lines 88-97): if the key has a
cell, push the record onto it; otherwise allocate a fresh cell holding just
the record and insert it into the map. -/
def TrackerState.log_call (s : TrackerState) (key : String) (info : CallInfo) :
    TrackerState :=
  match lookupKey key s.map with
  | some i => { s with store := setNth s.store i (nthLog s.store i ++ [info]) }
  | none => ⟨s.store ++ [[info]], s.map ++ [(key, s.store.length)]⟩

/-- Model of Tracker::clear (tracker.rs lines 100-102): the HashMap is
cleared; the cells themselves survive for any Assertion still holding an
Arc to them. -/
def TrackerState.clear (s : TrackerState) : TrackerState := { s with map := [] }

/-- Model of the Assertion object: the Arc handle (heap index) plus the key
string kept for error messages (tracker.rs lines 115-118). -/
structure Assertion where
  item : Nat
  key : String
deriving DecidableEq

/-- Model of the MetaAssertion object (tracker.rs lines 188-191). -/
structure MetaAssertion where
  item : Nat
  key : String
deriving DecidableEq

/-- Model of Tracker::assert_that (tracker.rs lines 70-79): if the key has a
cell, the Assertion shares it (Arc::clone); otherwise a fresh empty cell is
allocated for the Assertion alone — the map is not touched. -/
def TrackerState.assert_that (s : TrackerState) (key : String) :
    Assertion × TrackerState :=
  match lookupKey key s.map with
  | some i => (⟨i, key⟩, s)
  | none => (⟨s.store.length, key⟩, ⟨s.store ++ [[]], s.map⟩)

/-- Panic message of a failing assert_ne!(l, r, msg): the custom message
plus the left/right decoration printed by the Rust assert macros. -/
def neFail (l r : Nat) (msg : String) : String :=
  "assertion `left != right` failed: " ++ msg ++ "\n  left: " ++ Nat.repr l
    ++ "\n right: " ++ Nat.repr r

/-- Panic message of a failing assert_eq!(l, r, msg). -/
def eqFail (l r : Nat) (msg : String) : String :=
  "assertion `left == right` failed: " ++ msg ++ "\n  left: " ++ Nat.repr l
    ++ "\n right: " ++ Nat.repr r

/-- Model of Assertion::was_called_once (tracker.rs lines 123-139):
assert_ne!(len, 0) then assert_eq!(len, 1), then hand the same cell to a
MetaAssertion. -/
def Assertion.was_called_once (a : Assertion) (s : TrackerState) :
    Except String MetaAssertion :=
  if (readItem s a.item).length = 0 then
    Except.error (neFail (readItem s a.item).length 0
      (a.key ++ " wasn\x27t called."))
  else if (readItem s a.item).length = 1 then
    Except.ok ⟨a.item, a.key⟩
  else
    Except.error (eqFail (readItem s a.item).length 1
      (a.key ++ " was called more than once. Was called "
        ++ Nat.repr (readItem s a.item).length ++ " times."))

/-- Model of Assertion::was_called_times (tracker.rs lines 143-173):
assert_ne!(len, 0), assert!(len >= n), assert_eq!(len, n). -/
def Assertion.was_called_times (a : Assertion) (s : TrackerState) (n : Nat) :
    Except String MetaAssertion :=
  if (readItem s a.item).length = 0 then
    Except.error (neFail (readItem s a.item).length 0
      (a.key ++ " should\x27ve been called " ++ Nat.repr n
        ++ " times, but wasn\x27t called."))
  else if (readItem s a.item).length < n then
    Except.error (a.key ++ " was called fewer than " ++ Nat.repr n
      ++ " times. Was called " ++ Nat.repr (readItem s a.item).length
      ++ " times.")
  else if (readItem s a.item).length = n then
    Except.ok ⟨a.item, a.key⟩
  else
    Except.error (eqFail (readItem s a.item).length n
      (a.key ++ " was called more than " ++ Nat.repr n
        ++ " times. Was called " ++ Nat.repr (readItem s a.item).length
        ++ " times."))

/-- Model of Assertion::wasnt_called (tracker.rs lines 176-184):
assert_eq!(len, 0). -/
def Assertion.wasnt_called (a : Assertion) (s : TrackerState) :
    Except String Unit :=
  if (readItem s a.item).length = 0 then
    Except.ok ()
  else
    Except.error (eqFail (readItem s a.item).length 0
      (a.key ++ " should not have been called but was called "
        ++ Nat.repr (readItem s a.item).length ++ " times."))

/-- Model of the closure passed to Iterator::any inside MetaAssertion::with
and MetaAssertion::not_with, including its short-circuit behaviour and the
two expect panics: the records are inspected in order; a record without an
argument payload or with a payload of the wrong type panics before any
later record is looked at; a record whose payload is equal to the expected
arguments stops the scan with true. -/
def scanArgs (key : String) (ty v : Nat) : List CallInfo → Except String Bool
  | [] => Except.ok false
  | c :: rest =>
    match c.arguments with
    | none =>
      Except.error ("You didn\x27t log any arguments for your calls to "
        ++ key ++ ".")
    | some p =>
      if p.ty = ty then
        if p.v = v then Except.ok true else scanArgs key ty v rest
      else
        Except.error ("The arguments logged for " ++ key
          ++ " didn\x27t have that type.")

/-- Model of MetaAssertion::with (tracker.rs lines 200-221); `ty` is the
TypeId of the Rust type parameter T and `v` the code of the expected
arguments.  Named withArgs because `with` is reserved in Lean. -/
def MetaAssertion.withArgs (ma : MetaAssertion) (s : TrackerState)
    (ty v : Nat) : Except String MetaAssertion :=
  if (readItem s ma.item).length > 0 then
    match scanArgs ma.key ty v (readItem s ma.item) with
    | Except.error m => Except.error m
    | Except.ok true => Except.ok ma
    | Except.ok false =>
      Except.error (ma.key ++ " wasn\x27t called with the arguments specified.")
  else
    Except.error (ma.key ++ " wasn\x27t called.")

/-- Model of MetaAssertion::not_with (tracker.rs lines 229-251): the whole
check is skipped when the log is empty. -/
def MetaAssertion.not_with (ma : MetaAssertion) (s : TrackerState)
    (ty v : Nat) : Except String MetaAssertion :=
  if (readItem s ma.item).length > 0 then
    match scanArgs ma.key ty v (readItem s ma.item) with
    | Except.error m => Except.error m
    | Except.ok true =>
      Except.error (ma.key
        ++ " was called with the argument when it should\x27nt have been.")
    | Except.ok false => Except.ok ma
  else
    Except.ok ma

/-- Success of a modelled call that may panic. -/
def isSuccess {α : Type} : Except String α → Bool
  | Except.ok _ => true
  | Except.error _ => false

/-- One externally observable operation on the tracker. -/
inductive Op where
  | log (key : String) (info : CallInfo)
  | clear
deriving DecidableEq

/-- Effect of one operation on the tracker state. -/
def stepOp (s : TrackerState) : Op → TrackerState
  | Op.log k i => s.log_call k i
  | Op.clear => s.clear

/-- State reached by a sequence of operations from a given state. -/
def runFrom (s : TrackerState) (t : List Op) : TrackerState := t.foldl stepOp s

/-- State reached by a sequence of operations from Tracker::new(). -/
def run (t : List Op) : TrackerState := runFrom TrackerState.init t

/-- Call log currently recorded for a key: the contents of its cell, or the
empty log when the key has no cell. -/
def viewLog (s : TrackerState) (k : String) : List CallInfo :=
  match lookupKey k s.map with
  | some i => readItem s i
  | none => []

/-- Whether one operation is a log_call for the given key. -/
def mentionsKey (k : String) : Op → Bool
  | Op.log k2 _ => k2 = k
  | Op.clear => false

/-- Invariant of reachable tracker states: every cell index in the map is
allocated, and distinct map entries use distinct cells. -/
def TrackerInv (s : TrackerState) : Prop :=
  (∀ p ∈ s.map, p.2 < s.store.length) ∧
  (∀ p ∈ s.map, ∀ q ∈ s.map, p.2 = q.2 → p = q)

/-- Prefix test on character lists, used to state facts about panic
messages. -/
def prefixB : List Char → List Char → Bool
  | [], _ => true
  | _ :: _, [] => false
  | a :: as, b :: bs => if a = b then prefixB as bs else false

/-- Sublist (contiguous) test on character lists. -/
def subListB (pat : List Char) : List Char → Bool
  | [] => pat.isEmpty
  | c :: t => prefixB pat (c :: t) || subListB pat t

/-- Substring test: whether `pat` occurs contiguously in `hay`. -/
def strContainsB (hay pat : String) : Bool := subListB pat.data hay.data

/-- Success condition of the ordered scan performed by MetaAssertion::with:
some record carries exactly the expected payload, and every record before
it carries a payload of the expected type with a different value (so the
scan reaches the match without panicking). -/
def ScanHit (ty v : Nat) (l : List CallInfo) : Prop :=
  ∃ l₁ c l₂, l = l₁ ++ c :: l₂ ∧ c.arguments = some ⟨ty, v⟩ ∧
    ∀ c2 ∈ l₁, ∃ p, c2.arguments = some p ∧ p.ty = ty ∧ p.v ≠ v

/-- Chain assert_that(k).was_called_times(n).with(ty, v) on the state
reached by a trace, propagating panics. -/
def chainTimesWith (t : List Op) (k : String) (n ty v : Nat) :
    Except String MetaAssertion :=
  match ((run t).assert_that k).1.was_called_times ((run t).assert_that k).2 n with
  | Except.ok ma => ma.withArgs ((run t).assert_that k).2 ty v
  | Except.error m => Except.error m

/-- Chain assert_that(k).was_called_once().with(ty, v) on the state reached
by a trace, propagating panics. -/
def chainOnceWith (t : List Op) (k : String) (ty v : Nat) :
    Except String MetaAssertion :=
  match ((run t).assert_that k).1.was_called_once ((run t).assert_that k).2 with
  | Except.ok ma => ma.withArgs ((run t).assert_that k).2 ty v
  | Except.error m => Except.error m

/-- Chain assert_that(k).was_called_once().not_with(ty, v) on the state
reached by a trace, propagating panics. -/
def chainOnceNotWith (t : List Op) (k : String) (ty v : Nat) :
    Except String MetaAssertion :=
  match ((run t).assert_that k).1.was_called_once ((run t).assert_that k).2 with
  | Except.ok ma => ma.not_with ((run t).assert_that k).2 ty v
  | Except.error m => Except.error m

/-- Trace used by the counterexample to C2. -/
def c2state : TrackerState := run [Op.log "k" ⟨none, none⟩]

/-- Assertion taken before the racing append, for the counterexample to C2. -/
def c2pair : Assertion × TrackerState := c2state.assert_that "k"

/-- State after a log_call performed after the Assertion was created, for
the counterexample to C2. -/
def c2after : TrackerState := c2pair.2.log_call "k" ⟨some ⟨1, 2⟩, none⟩

/-- Trace used by the counterexample to C3: a record without arguments
followed by a record whose arguments match the expectation. -/
def c3t : List Op := [Op.log "k" ⟨none, none⟩, Op.log "k" ⟨some ⟨5, 7⟩, none⟩]

/-- Trace used by the counterexample to C4: a single record without an
argument payload. -/
def c4t : List Op := [Op.log "k" ⟨none, none⟩]

/-! Basic lemmas about the heap and the registry map. -/

theorem length_setNth (l : List (List CallInfo)) (i : Nat) (x : List CallInfo) :
    (setNth l i x).length = l.length := by
  induction l generalizing i with
  | nil => rfl
  | cons a t ih =>
    cases i with
    | zero => rfl
    | succ j => simpa [setNth] using ih j

theorem nthLog_setNth_self (l : List (List CallInfo)) (i : Nat)
    (x : List CallInfo) (h : i < l.length) : nthLog (setNth l i x) i = x := by
  induction l generalizing i with
  | nil => simp at h
  | cons a t ih =>
    cases i with
    | zero => rfl
    | succ j =>
      simp only [setNth, nthLog]
      exact ih j (by simpa using h)

theorem nthLog_setNth_ne (l : List (List CallInfo)) (i j : Nat)
    (x : List CallInfo) (h : i ≠ j) : nthLog (setNth l i x) j = nthLog l j := by
  induction l generalizing i j with
  | nil => rfl
  | cons a t ih =>
    cases i with
    | zero =>
      cases j with
      | zero => exact absurd rfl h
      | succ j2 => rfl
    | succ i2 =>
      cases j with
      | zero => rfl
      | succ j2 =>
        simp only [setNth, nthLog]
        exact ih i2 j2 (fun he => h (by rw [he]))

theorem nthLog_append_lt (l l2 : List (List CallInfo)) (i : Nat)
    (h : i < l.length) : nthLog (l ++ l2) i = nthLog l i := by
  induction l generalizing i with
  | nil => simp at h
  | cons a t ih =>
    cases i with
    | zero => rfl
    | succ j =>
      simp only [List.cons_append, nthLog]
      exact ih j (by simpa using h)

theorem nthLog_append_len (l : List (List CallInfo)) (x : List CallInfo) :
    nthLog (l ++ [x]) l.length = x := by
  induction l with
  | nil => rfl
  | cons a t ih => simpa [nthLog] using ih

theorem lookupKey_mem {k : String} {m : List (String × Nat)} {i : Nat}
    (h : lookupKey k m = some i) : (k, i) ∈ m := by
  induction m with
  | nil => simp [lookupKey] at h
  | cons p rest ih =>
    rcases p with ⟨k2, j⟩
    by_cases hk : k2 = k
    · subst hk
      simp only [lookupKey, if_true, eq_self_iff_true, Option.some.injEq] at h
      subst h
      exact List.mem_cons_self _ _
    · simp only [lookupKey, if_neg hk] at h
      exact List.mem_cons_of_mem _ (ih h)

theorem lookupKey_none_iff {k : String} {m : List (String × Nat)} :
    lookupKey k m = none ↔ ∀ p ∈ m, p.1 ≠ k := by
  induction m with
  | nil => simp [lookupKey]
  | cons p rest ih =>
    rcases p with ⟨k2, j⟩
    by_cases hk : k2 = k
    · subst hk
      simp [lookupKey]
    · simp [lookupKey, if_neg hk, ih, hk]

theorem lookupKey_append_of_none {k : String} {m : List (String × Nat)}
    (m2 : List (String × Nat)) (h : lookupKey k m = none) :
    lookupKey k (m ++ m2) = lookupKey k m2 := by
  induction m with
  | nil => rfl
  | cons p rest ih =>
    rcases p with ⟨k2, j⟩
    by_cases hk : k2 = k
    · simp [lookupKey, if_pos hk] at h
    · simp only [lookupKey, if_neg hk] at h
      simpa [lookupKey, if_neg hk] using ih h

theorem lookupKey_append_of_some {k : String} {m : List (String × Nat)}
    {i : Nat} (m2 : List (String × Nat)) (h : lookupKey k m = some i) :
    lookupKey k (m ++ m2) = some i := by
  induction m with
  | nil => simp [lookupKey] at h
  | cons p rest ih =>
    rcases p with ⟨k2, j⟩
    by_cases hk : k2 = k
    · simp only [lookupKey, if_pos hk, Option.some.injEq] at h
      simp [lookupKey, if_pos hk, h]
    · simp only [lookupKey, if_neg hk] at h
      simpa [lookupKey, if_neg hk] using ih h

/-! Invariant preservation and the effect of each operation on viewLog. -/

theorem trackerInv_init : TrackerInv TrackerState.init := by
  constructor
  · intro p hp; simp [TrackerState.init] at hp
  · intro p hp; simp [TrackerState.init] at hp

theorem trackerInv_log (s : TrackerState) (k : String) (info : CallInfo)
    (h : TrackerInv s) : TrackerInv (s.log_call k info) := by
  rcases h with ⟨hb, hinj⟩
  unfold TrackerState.log_call
  cases hk : lookupKey k s.map with
  | some i =>
    refine ⟨?_, ?_⟩
    · intro p hp
      simpa [length_setNth] using hb p hp
    · intro p hp q hq
      exact hinj p hp q hq
  | none =>
    refine ⟨?_, ?_⟩
    · intro p hp
      simp only [List.mem_append, List.mem_singleton] at hp
      rcases hp with hp | hp
      · have := hb p hp
        simp only [List.length_append, List.length_singleton]
        omega
      · subst hp
        simp only [List.length_append, List.length_singleton]
        omega
    · intro p hp q hq hpq
      simp only [List.mem_append, List.mem_singleton] at hp hq
      rcases hp with hp | hp <;> rcases hq with hq | hq
      · exact hinj p hp q hq hpq
      · exfalso
        have := hb p hp
        subst hq
        simp only at hpq
        omega
      · exfalso
        have := hb q hq
        subst hp
        simp only at hpq
        omega
      · rw [hp, hq]

theorem trackerInv_clear (s : TrackerState) (_h : TrackerInv s) :
    TrackerInv s.clear := by
  refine ⟨?_, ?_⟩
  · intro p hp; simp [TrackerState.clear] at hp
  · intro p hp; simp [TrackerState.clear] at hp

theorem trackerInv_step (s : TrackerState) (op : Op) (h : TrackerInv s) :
    TrackerInv (stepOp s op) := by
  cases op with
  | log k info => exact trackerInv_log s k info h
  | clear => exact trackerInv_clear s h

theorem trackerInv_runFrom (t : List Op) (s : TrackerState)
    (h : TrackerInv s) : TrackerInv (runFrom s t) := by
  induction t generalizing s with
  | nil => exact h
  | cons op rest ih => exact ih (stepOp s op) (trackerInv_step s op h)

theorem trackerInv_run (t : List Op) : TrackerInv (run t) :=
  trackerInv_runFrom t TrackerState.init trackerInv_init

theorem viewLog_log_self (s : TrackerState) (k : String) (info : CallInfo)
    (h : TrackerInv s) : viewLog (s.log_call k info) k = viewLog s k ++ [info] := by
  rcases h with ⟨hb, _⟩
  unfold viewLog TrackerState.log_call
  cases hk : lookupKey k s.map with
  | some i =>
    have hi : i < s.store.length := hb (k, i) (lookupKey_mem hk)
    simp only [hk, readItem]
    rw [nthLog_setNth_self s.store i _ hi]
  | none =>
    have happ : lookupKey k (s.map ++ [(k, s.store.length)])
        = some s.store.length := by
      rw [lookupKey_append_of_none _ hk]
      simp [lookupKey]
    simp only [hk, happ, readItem]
    rw [nthLog_append_len]
    simp

theorem viewLog_log_other (s : TrackerState) (k k2 : String) (info : CallInfo)
    (h : TrackerInv s) (hne : k2 ≠ k) :
    viewLog (s.log_call k info) k2 = viewLog s k2 := by
  rcases h with ⟨hb, hinj⟩
  unfold viewLog TrackerState.log_call
  cases hk : lookupKey k s.map with
  | some i =>
    cases hk2 : lookupKey k2 s.map with
    | some j =>
      have hji : j ≠ i := by
        intro he
        have : (k2, j) = (k, i) :=
          hinj (k2, j) (lookupKey_mem hk2) (k, i) (lookupKey_mem hk) (by simpa using he)
        exact hne (by simpa using congrArg Prod.fst this)
      simp only [hk2, readItem]
      rw [nthLog_setNth_ne s.store i j _ (fun he => hji he.symm)]
    | none => simp [hk2]
  | none =>
    cases hk2 : lookupKey k2 s.map with
    | some j =>
      have hj : j < s.store.length := hb (k2, j) (lookupKey_mem hk2)
      have happ : lookupKey k2 (s.map ++ [(k, s.store.length)]) = some j :=
        lookupKey_append_of_some _ hk2
      simp only [happ, hk2, readItem]
      rw [nthLog_append_lt s.store _ j hj]
    | none =>
      have happ : lookupKey k2 (s.map ++ [(k, s.store.length)]) = none := by
        rw [lookupKey_append_of_none _ hk2]
        simp [lookupKey, hne.symm]
      simp [happ, hk2]

theorem viewLog_clear (s : TrackerState) (k : String) :
    viewLog s.clear k = [] := by
  simp [viewLog, TrackerState.clear, lookupKey]

theorem runFrom_cons (s : TrackerState) (op : Op) (t : List Op) :
    runFrom s (op :: t) = runFrom (stepOp s op) t := rfl

theorem viewLog_init (k : String) : viewLog TrackerState.init k = [] := rfl

/-! Lemmas connecting assert_that and the cardinality checks to viewLog. -/

theorem assert_read (s : TrackerState) (k : String) :
    readItem (s.assert_that k).2 ((s.assert_that k).1).item = viewLog s k := by
  unfold TrackerState.assert_that viewLog
  cases hk : lookupKey k s.map with
  | some i => rfl
  | none =>
    simp only [readItem]
    exact nthLog_append_len s.store []

theorem assert_map (s : TrackerState) (k : String) :
    ((s.assert_that k).2).map = s.map := by
  unfold TrackerState.assert_that
  cases hk : lookupKey k s.map <;> rfl

theorem wasnt_called_ok_iff (a : Assertion) (s : TrackerState) :
    a.wasnt_called s = Except.ok () ↔ (readItem s a.item).length = 0 := by
  unfold Assertion.wasnt_called
  by_cases h : (readItem s a.item).length = 0 <;> simp [h]

theorem was_called_once_ok_iff (a : Assertion) (s : TrackerState) :
    isSuccess (a.was_called_once s) = true ↔ (readItem s a.item).length = 1 := by
  unfold Assertion.was_called_once
  by_cases h0 : (readItem s a.item).length = 0
  · simp [h0, isSuccess]
  · by_cases h1 : (readItem s a.item).length = 1 <;> simp [h0, h1, isSuccess]

theorem was_called_times_ok_iff (a : Assertion) (s : TrackerState) (n : Nat) :
    isSuccess (a.was_called_times s n) = true ↔
      (readItem s a.item).length = n ∧ 0 < n := by
  unfold Assertion.was_called_times
  by_cases h0 : (readItem s a.item).length = 0
  · simp [h0, isSuccess]
    omega
  · by_cases hlt : (readItem s a.item).length < n
    · simp [h0, hlt, isSuccess]
      omega
    · by_cases heq : (readItem s a.item).length = n
      · have hn : ¬n = 0 := by omega
        simp [h0, hlt, heq, hn, isSuccess]
        omega
      · simp [h0, hlt, heq, isSuccess]

theorem viewLog_runFrom_logs (k : String) (rs : List CallInfo) :
    ∀ s : TrackerState, TrackerInv s →
      viewLog (runFrom s (rs.map (Op.log k))) k = viewLog s k ++ rs := by
  induction rs with
  | nil => intro s _; simp [runFrom]
  | cons r rest ih =>
    intro s hs
    have h1 : runFrom s ((r :: rest).map (Op.log k))
        = runFrom (s.log_call k r) (rest.map (Op.log k)) := rfl
    rw [h1, ih (s.log_call k r) (trackerInv_log s k r hs),
      viewLog_log_self s k r hs, List.append_assoc]
    rfl

theorem lookupKey_runFrom_none (t : List Op) (k : String) :
    ∀ s : TrackerState, lookupKey k s.map = none →
      t.all (fun op => !(mentionsKey k op)) = true →
      lookupKey k (runFrom s t).map = none := by
  induction t with
  | nil => intro s hs _; exact hs
  | cons op rest ih =>
    intro s hs hall
    simp only [List.all_cons, Bool.and_eq_true] at hall
    rw [runFrom_cons]
    refine ih (stepOp s op) ?_ hall.2
    cases op with
    | log k2 info =>
      have hne : k2 ≠ k := by
        have h1 := hall.1
        simp only [mentionsKey] at h1
        intro he
        rw [he] at h1
        simp at h1
      simp only [stepOp, TrackerState.log_call]
      cases hk2 : lookupKey k2 s.map with
      | some i => exact hs
      | none =>
        rw [lookupKey_append_of_none _ hs]
        simp [lookupKey, hne]
    | clear =>
      simp [stepOp, TrackerState.clear, lookupKey]

/-! Lemmas for substring facts about panic messages. -/

theorem prefixB_self_append (p r : List Char) : prefixB p (p ++ r) = true := by
  induction p with
  | nil => rfl
  | cons a t ih => simpa [prefixB] using ih

theorem prefixB_append_right (p h b : List Char) (hp : prefixB p h = true) :
    prefixB p (h ++ b) = true := by
  induction p generalizing h with
  | nil => rfl
  | cons a t ih =>
    cases h with
    | nil => simp [prefixB] at hp
    | cons c hs =>
      simp only [List.cons_append, prefixB] at hp ⊢
      by_cases hac : a = c
      · rw [if_pos hac] at hp ⊢
        exact ih hs hp
      · rw [if_neg hac] at hp
        exact absurd hp (by simp)

theorem subListB_nil (h : List Char) : subListB [] h = true := by
  cases h <;> simp [subListB, prefixB, List.isEmpty]

theorem subListB_appendL (p a b : List Char) (h : subListB p b = true) :
    subListB p (a ++ b) = true := by
  induction a with
  | nil => exact h
  | cons c t ih =>
    simp only [List.cons_append, subListB, List.append_eq]
    rw [ih]
    simp

theorem subListB_appendR (p a b : List Char) (h : subListB p a = true) :
    subListB p (a ++ b) = true := by
  induction a with
  | nil =>
    have hp : p = [] := by
      cases p with
      | nil => rfl
      | cons c t => simp [subListB, List.isEmpty] at h
    subst hp
    exact subListB_nil b
  | cons c t ih =>
    simp only [subListB] at h
    simp only [Bool.or_eq_true] at h
    rcases h with h1 | h1
    · simp only [List.cons_append, subListB, List.append_eq]
      have h2 := prefixB_append_right p (c :: t) b h1
      simp only [List.cons_append, List.append_eq] at h2
      rw [h2]
      simp
    · simp only [List.cons_append, subListB, List.append_eq]
      rw [ih h1]
      simp

theorem subListB_self_append (p r : List Char) : subListB p (p ++ r) = true := by
  cases p with
  | nil => exact subListB_nil r
  | cons c t =>
    have h := prefixB_self_append (c :: t) r
    simp only [List.cons_append] at h ⊢
    simp [subListB, h]

theorem strData_append (a b : String) : (a ++ b).data = a.data ++ b.data := by
  rcases a with ⟨al⟩
  rcases b with ⟨bl⟩
  rfl

theorem strContainsB_self_pre (p b : String) : strContainsB (p ++ b) p = true := by
  unfold strContainsB
  rw [strData_append]
  exact subListB_self_append p.data b.data

theorem strContainsB_self (p : String) : strContainsB p p = true := by
  unfold strContainsB
  simpa using subListB_self_append p.data []

theorem strContainsB_left (a b p : String) (h : strContainsB b p = true) :
    strContainsB (a ++ b) p = true := by
  unfold strContainsB at h ⊢
  rw [strData_append]
  exact subListB_appendL _ _ _ h

theorem strContainsB_right (a b p : String) (h : strContainsB a p = true) :
    strContainsB (a ++ b) p = true := by
  unfold strContainsB at h ⊢
  rw [strData_append]
  exact subListB_appendR _ _ _ h

/-! Characterisation of the argument scan of with and not_with. -/

theorem scanArgs_ok_true_iff (k : String) (ty v : Nat) (l : List CallInfo) :
    scanArgs k ty v l = Except.ok true ↔ ScanHit ty v l := by
  induction l with
  | nil =>
    constructor
    · intro h
      simp [scanArgs] at h
    · rintro ⟨l1, c, l2, heq, -, -⟩
      exact absurd heq (by simp)
  | cons c rest ih =>
    cases hc : c.arguments with
    | none =>
      constructor
      · intro h
        simp [scanArgs, hc] at h
      · rintro ⟨l1, c0, l2, heq, hargs, hall⟩
        cases l1 with
        | nil =>
          simp only [List.nil_append, List.cons.injEq] at heq
          rw [heq.1] at hc
          rw [hc] at hargs
          exact absurd hargs (by simp)
        | cons d l1t =>
          simp only [List.cons_append, List.cons.injEq] at heq
          rcases hall d (List.mem_cons_self d l1t) with ⟨p, hp, -, -⟩
          rw [← heq.1, hc] at hp
          exact absurd hp (by simp)
    | some p =>
      by_cases hty : p.ty = ty
      · by_cases hv : p.v = v
        · constructor
          · intro _
            refine ⟨[], c, rest, by simp, ?_, by intro c2 hc2; simp at hc2⟩
            rw [hc]
            rcases p with ⟨pt, pv⟩
            simp only at hty hv
            rw [hty, hv]
          · intro _
            simp [scanArgs, hc, hty, hv]
        · have hstep : scanArgs k ty v (c :: rest) = scanArgs k ty v rest := by
            simp [scanArgs, hc, hty, hv]
          rw [hstep, ih]
          constructor
          · rintro ⟨l1, c0, l2, heq, hargs, hall⟩
            refine ⟨c :: l1, c0, l2, by simp [heq], hargs, ?_⟩
            intro c2 hc2
            rcases List.mem_cons.mp hc2 with h2 | h2
            · subst h2
              exact ⟨p, hc, hty, hv⟩
            · exact hall c2 h2
          · rintro ⟨l1, c0, l2, heq, hargs, hall⟩
            cases l1 with
            | nil =>
              simp only [List.nil_append, List.cons.injEq] at heq
              rw [← heq.1, hc] at hargs
              simp only [Option.some.injEq] at hargs
              rw [hargs] at hv
              simp at hv
            | cons d l1t =>
              simp only [List.cons_append, List.cons.injEq] at heq
              exact ⟨l1t, c0, l2, heq.2, hargs,
                fun c2 h2 => hall c2 (List.mem_cons_of_mem d h2)⟩
      · constructor
        · intro h
          simp [scanArgs, hc, hty] at h
        · rintro ⟨l1, c0, l2, heq, hargs, hall⟩
          cases l1 with
          | nil =>
            simp only [List.nil_append, List.cons.injEq] at heq
            rw [← heq.1, hc] at hargs
            simp only [Option.some.injEq] at hargs
            rw [hargs] at hty
            simp at hty
          | cons d l1t =>
            simp only [List.cons_append, List.cons.injEq] at heq
            rcases hall d (List.mem_cons_self d l1t) with ⟨p2, hp2, hpty, -⟩
            rw [← heq.1, hc] at hp2
            simp only [Option.some.injEq] at hp2
            rw [← hp2] at hpty
            exact absurd hpty hty

theorem scanArgs_no_panic (k : String) (ty v : Nat) (l : List CallInfo)
    (h : ∀ c ∈ l, Option.map Payload.ty c.arguments = some ty) :
    ∃ b, scanArgs k ty v l = Except.ok b := by
  induction l with
  | nil => exact ⟨false, rfl⟩
  | cons c rest ih =>
    have hc := h c (List.mem_cons_self c rest)
    cases harg : c.arguments with
    | none =>
      rw [harg] at hc
      simp at hc
    | some p =>
      rw [harg] at hc
      simp only [Option.map_some', Option.some.injEq] at hc
      by_cases hv : p.v = v
      · exact ⟨true, by simp [scanArgs, harg, hc, hv]⟩
      · rcases ih (fun c2 h2 => h c2 (List.mem_cons_of_mem c h2)) with ⟨b, hb⟩
        exact ⟨b, by simp [scanArgs, harg, hc, hv, hb]⟩

/-! Equation lemmas for assert_that and log_call, and message containment
helpers. -/

theorem assert_that_none (s : TrackerState) (k : String)
    (hk : lookupKey k s.map = none) :
    s.assert_that k = (⟨s.store.length, k⟩, ⟨s.store ++ [[]], s.map⟩) := by
  unfold TrackerState.assert_that
  rw [hk]

theorem assert_that_some (s : TrackerState) (k : String) (i : Nat)
    (hk : lookupKey k s.map = some i) :
    s.assert_that k = (⟨i, k⟩, s) := by
  unfold TrackerState.assert_that
  rw [hk]

theorem log_call_none (s : TrackerState) (k : String) (r : CallInfo)
    (hk : lookupKey k s.map = none) :
    s.log_call k r = ⟨s.store ++ [[r]], s.map ++ [(k, s.store.length)]⟩ := by
  unfold TrackerState.log_call
  rw [hk]

theorem log_call_some (s : TrackerState) (k : String) (r : CallInfo) (i : Nat)
    (hk : lookupKey k s.map = some i) :
    s.log_call k r
      = { s with store := setNth s.store i (nthLog s.store i ++ [r]) } := by
  unfold TrackerState.log_call
  rw [hk]

theorem viewLog_assert (s : TrackerState) (hInv : TrackerInv s) (k k2 : String) :
    viewLog ((s.assert_that k).2) k2 = viewLog s k2 := by
  cases hk : lookupKey k s.map with
  | some i => rw [assert_that_some s k i hk]
  | none =>
    rw [assert_that_none s k hk]
    unfold viewLog
    cases hk2 : lookupKey k2 s.map with
    | some j =>
      have hj : j < s.store.length := hInv.1 (k2, j) (lookupKey_mem hk2)
      simp only [readItem]
      exact nthLog_append_lt _ _ _ hj
    | none => rfl

theorem was_called_times_zero (a : Assertion) (s : TrackerState) :
    isSuccess (a.was_called_times s 0) = false := by
  by_cases hb : isSuccess (a.was_called_times s 0) = true
  · have h2 := (was_called_times_ok_iff a s 0).mp hb
    omega
  · simpa using hb

theorem contains_neFail_msg (l r : Nat) (m p : String)
    (h : strContainsB m p = true) : strContainsB (neFail l r m) p = true := by
  unfold neFail
  exact strContainsB_right _ _ _ (strContainsB_right _ _ _
    (strContainsB_right _ _ _ (strContainsB_right _ _ _
      (strContainsB_left _ _ _ h))))

theorem contains_neFail_left (l r : Nat) (m : String) :
    strContainsB (neFail l r m) (Nat.repr l) = true := by
  unfold neFail
  exact strContainsB_right _ _ _ (strContainsB_right _ _ _
    (strContainsB_left _ _ _ (strContainsB_self (Nat.repr l))))

theorem contains_neFail_right (l r : Nat) (m : String) :
    strContainsB (neFail l r m) (Nat.repr r) = true := by
  unfold neFail
  exact strContainsB_left _ _ _ (strContainsB_self (Nat.repr r))

theorem contains_eqFail_msg (l r : Nat) (m p : String)
    (h : strContainsB m p = true) : strContainsB (eqFail l r m) p = true := by
  unfold eqFail
  exact strContainsB_right _ _ _ (strContainsB_right _ _ _
    (strContainsB_right _ _ _ (strContainsB_right _ _ _
      (strContainsB_left _ _ _ h))))

theorem contains_eqFail_left (l r : Nat) (m : String) :
    strContainsB (eqFail l r m) (Nat.repr l) = true := by
  unfold eqFail
  exact strContainsB_right _ _ _ (strContainsB_right _ _ _
    (strContainsB_left _ _ _ (strContainsB_self (Nat.repr l))))

theorem contains_eqFail_right (l r : Nat) (m : String) :
    strContainsB (eqFail l r m) (Nat.repr r) = true := by
  unfold eqFail
  exact strContainsB_left _ _ _ (strContainsB_self (Nat.repr r))

/-! Claim theorems. -/

/-- C5: for every key never passed to log_call, assert_that returns an
Assertion over an empty log (it is not an error), and wasnt_called on it
succeeds. -/
theorem claim_C5 (t : List Op) (k : String)
    (h : t.all (fun op => !(mentionsKey k op)) = true) :
    readItem (((run t).assert_that k).2) (((run t).assert_that k).1).item = [] ∧
    ((run t).assert_that k).1.wasnt_called (((run t).assert_that k).2)
      = Except.ok () := by
  have hnone : lookupKey k (run t).map = none :=
    lookupKey_runFrom_none t k TrackerState.init rfl h
  have hview : viewLog (run t) k = [] := by
    unfold viewLog
    rw [hnone]
  constructor
  · rw [assert_read]
    exact hview
  · rw [wasnt_called_ok_iff, assert_read, hview]
    rfl

/-- Witness for C5 at the concrete trace that logs only the key "a". -/
theorem claim_C5_witness :
    readItem (((run [Op.log "a" ⟨none, none⟩]).assert_that "k").2)
      (((run [Op.log "a" ⟨none, none⟩]).assert_that "k").1).item = [] ∧
    ((run [Op.log "a" ⟨none, none⟩]).assert_that "k").1.wasnt_called
      (((run [Op.log "a" ⟨none, none⟩]).assert_that "k").2) = Except.ok () :=
  claim_C5 [Op.log "a" ⟨none, none⟩] "k" (by rfl)

/-- C6: key isolation — a log_call for key A leaves the recorded log (count
and contents) of any other key B unchanged. -/
theorem claim_C6 (t : List Op) (A B : String) (r : CallInfo) (h : A ≠ B) :
    viewLog ((run t).log_call A r) B = viewLog (run t) B :=
  viewLog_log_other (run t) A B r (trackerInv_run t) (Ne.symm h)

/-- Witness for C6 at a concrete trace and distinct keys. -/
theorem claim_C6_witness :
    viewLog ((run [Op.log "a" ⟨none, none⟩]).log_call "a" ⟨some ⟨1, 2⟩, none⟩)
      "b" = viewLog (run [Op.log "a" ⟨none, none⟩]) "b" :=
  claim_C6 [Op.log "a" ⟨none, none⟩] "a" "b" ⟨some ⟨1, 2⟩, none⟩ (by decide)

/-- C7: clear() followed by assert_that(k).wasnt_called() succeeds for every
reachable tracker state and every previously used key. -/
theorem claim_C7 (t : List Op) (k : String)
    (_h : t.any (mentionsKey k) = true) :
    ((run t).clear.assert_that k).1.wasnt_called
      (((run t).clear.assert_that k).2) = Except.ok () := by
  rw [wasnt_called_ok_iff, assert_read, viewLog_clear]
  rfl

/-- Witness for C7 at a concrete trace that used the key "k". -/
theorem claim_C7_witness :
    ((run [Op.log "k" ⟨none, none⟩]).clear.assert_that "k").1.wasnt_called
      (((run [Op.log "k" ⟨none, none⟩]).clear.assert_that "k").2)
      = Except.ok () :=
  claim_C7 [Op.log "k" ⟨none, none⟩] "k" (by rfl)

/-- C9: for every tracker state and every key, was_called_times(0) raises an
assertion failure — also when the key was never logged and its log is empty
— so it is never equivalent to a succeeding wasnt_called(). -/
theorem claim_C9 (s : TrackerState) (k : String) :
    isSuccess ((s.assert_that k).1.was_called_times ((s.assert_that k).2) 0)
      = false :=
  was_called_times_zero _ _

/-- C10: assert_that never mutates the Tracker — the registry map and every
key's visible log are identical before and after any assert_that call. -/
theorem claim_C10 (t : List Op) (k : String) :
    ((run t).assert_that k).2.map = (run t).map ∧
    ∀ k2 : String,
      viewLog (((run t).assert_that k).2) k2 = viewLog (run t) k2 := by
  constructor
  · exact assert_map (run t) k
  · intro k2
    exact viewLog_assert (run t) (trackerInv_run t) k k2

/-- C1 counterexample: a sequence of N = 0 calls to log_call refutes the
claim as stated — was_called_times(0) fails on the untouched tracker
instead of succeeding. -/
theorem claim_C1_counterexample :
    isSuccess (((run ([] : List Op)).assert_that "k").1.was_called_times
      (((run ([] : List Op)).assert_that "k").2) 0) = false := rfl

/-- C1 (amended): for every key k and every nonempty sequence of N records
logged for k (and no clear), was_called_times(N) succeeds and
was_called_once() succeeds iff N = 1; for N = 0 was_called_times(0) raises
instead. -/
theorem claim_C1 (k : String) (rs : List CallInfo) (h : rs ≠ []) :
    isSuccess (((run (rs.map (Op.log k))).assert_that k).1.was_called_times
      (((run (rs.map (Op.log k))).assert_that k).2) rs.length) = true ∧
    (isSuccess (((run (rs.map (Op.log k))).assert_that k).1.was_called_once
      (((run (rs.map (Op.log k))).assert_that k).2)) = true
      ↔ rs.length = 1) := by
  have hview : viewLog (run (rs.map (Op.log k))) k = rs := by
    have h2 := viewLog_runFrom_logs k rs TrackerState.init trackerInv_init
    simpa [run, viewLog_init] using h2
  constructor
  · rw [was_called_times_ok_iff, assert_read, hview]
    refine ⟨rfl, ?_⟩
    cases rs with
    | nil => exact absurd rfl h
    | cons c t2 => simp
  · rw [was_called_once_ok_iff, assert_read, hview]

/-- Witness for C1 at one logged record. -/
theorem claim_C1_witness :
    isSuccess (((run (([⟨none, none⟩] : List CallInfo).map
        (Op.log "k"))).assert_that "k").1.was_called_times
      (((run (([⟨none, none⟩] : List CallInfo).map
        (Op.log "k"))).assert_that "k").2)
      ([⟨none, none⟩] : List CallInfo).length) = true ∧
    (isSuccess (((run (([⟨none, none⟩] : List CallInfo).map
        (Op.log "k"))).assert_that "k").1.was_called_once
      (((run (([⟨none, none⟩] : List CallInfo).map
        (Op.log "k"))).assert_that "k").2)) = true
      ↔ ([⟨none, none⟩] : List CallInfo).length = 1) :=
  claim_C1 "k" [⟨none, none⟩] (by simp)

/-- C2 counterexample: with one record logged for "k", an Assertion taken
by assert_that shares the live log, so a log_call performed after the
Assertion was created is observed by its checks — the cell it reads now
holds both records and was_called_once fails although the log held exactly
one record when the Assertion was created. -/
theorem claim_C2_counterexample :
    readItem c2after c2pair.1.item
      = [⟨none, none⟩, ⟨some ⟨1, 2⟩, none⟩] ∧
    isSuccess (c2pair.1.was_called_once c2after) = false := ⟨rfl, rfl⟩

/-- C2 (amended): an Assertion is a live handle to the key's log, not a
content snapshot.  If the key had no log when assert_that ran, the
Assertion holds a fresh detached cell and a later log_call for the key is
not observed; if the key already had a log, the Assertion shares it and a
later log_call IS observed by every subsequent check. -/
theorem claim_C2 (t : List Op) (k : String) (r : CallInfo) :
    (lookupKey k (run t).map = none →
      readItem ((((run t).assert_that k).2).log_call k r)
        (((run t).assert_that k).1).item = []) ∧
    (∀ i : Nat, lookupKey k (run t).map = some i →
      readItem ((((run t).assert_that k).2).log_call k r)
        (((run t).assert_that k).1).item = viewLog (run t) k ++ [r]) := by
  constructor
  · intro hk
    rw [assert_that_none _ _ hk]
    show readItem ((⟨(run t).store ++ [[]], (run t).map⟩ :
        TrackerState).log_call k r) (run t).store.length = []
    have hk2 : lookupKey k (⟨(run t).store ++ [[]], (run t).map⟩ :
        TrackerState).map = none := hk
    rw [log_call_none _ _ _ hk2]
    show nthLog (((run t).store ++ [[]]) ++ [[r]]) (run t).store.length = []
    have hlen : ((run t).store ++ [[]] : List (List CallInfo)).length
        = (run t).store.length + 1 := by simp
    rw [nthLog_append_lt _ _ _ (by omega)]
    exact nthLog_append_len _ _
  · intro i hk
    rw [assert_that_some _ _ _ hk]
    rw [log_call_some _ _ _ _ hk]
    show nthLog (setNth (run t).store i (nthLog (run t).store i ++ [r])) i
      = viewLog (run t) k ++ [r]
    have hi : i < (run t).store.length :=
      (trackerInv_run t).1 (k, i) (lookupKey_mem hk)
    rw [nthLog_setNth_self _ _ _ hi]
    unfold viewLog
    rw [hk]
    rfl

/-- Witness for C2 at a never-logged key (first part) and an already-logged
key (second part). -/
theorem claim_C2_witness :
    readItem ((((run ([] : List Op)).assert_that "k").2).log_call "k"
        ⟨none, none⟩)
      (((run ([] : List Op)).assert_that "k").1).item = [] ∧
    readItem ((((run [Op.log "k" ⟨none, none⟩]).assert_that "k").2).log_call
        "k" ⟨some ⟨1, 2⟩, none⟩)
      (((run [Op.log "k" ⟨none, none⟩]).assert_that "k").1).item
      = viewLog (run [Op.log "k" ⟨none, none⟩]) "k" ++ [⟨some ⟨1, 2⟩, none⟩] :=
  ⟨(claim_C2 [] "k" ⟨none, none⟩).1 rfl,
   (claim_C2 [Op.log "k" ⟨none, none⟩] "k" ⟨some ⟨1, 2⟩, none⟩).2 0 rfl⟩

/-- C3 counterexample: the snapshot holds a record without an argument
payload followed by a record whose payload recovers as the expected type
and compares equal, so by the claim with() should succeed; the code panics
on the first record's missing payload instead. -/
theorem claim_C3_counterexample :
    readItem (((run c3t).assert_that "k").2)
      (((run c3t).assert_that "k").1).item
      = [⟨none, none⟩, ⟨some ⟨5, 7⟩, none⟩] ∧
    chainTimesWith c3t "k" 2 5 7
      = Except.error "You didn\x27t log any arguments for your calls to k." :=
  ⟨rfl, rfl⟩

/-- C3 (amended): with(expectedArgs) succeeds iff the in-order scan of the
log reaches a record whose argument payload recovers as the expected type
and compares equal, with every earlier record carrying a payload of that
type with a different value; in every other case — empty log, a missing
payload or a type mismatch hit before any match, or no matching record — it
raises an assertion failure (it never silently passes). -/
theorem claim_C3 (s : TrackerState) (ma : MetaAssertion) (ty v : Nat) :
    isSuccess (ma.withArgs s ty v) = true
      ↔ ScanHit ty v (readItem s ma.item) := by
  unfold MetaAssertion.withArgs
  by_cases hlen : (readItem s ma.item).length > 0
  · rw [if_pos hlen]
    cases hscan : scanArgs ma.key ty v (readItem s ma.item) with
    | error m =>
      simp only [isSuccess]
      constructor
      · intro h
        exact absurd h (by simp)
      · intro h
        have h2 := (scanArgs_ok_true_iff ma.key ty v (readItem s ma.item)).mpr h
        rw [hscan] at h2
        exact absurd h2 (by simp)
    | ok b =>
      cases b with
      | true =>
        simp only [isSuccess]
        constructor
        · intro _
          exact (scanArgs_ok_true_iff ma.key ty v (readItem s ma.item)).mp hscan
        · intro _
          trivial
      | false =>
        simp only [isSuccess]
        constructor
        · intro h
          exact absurd h (by simp)
        · intro h
          have h2 := (scanArgs_ok_true_iff ma.key ty v (readItem s ma.item)).mpr h
          rw [hscan] at h2
          exact absurd h2 (by simp)
  · rw [if_neg hlen]
    simp only [isSuccess]
    constructor
    · intro h
      exact absurd h (by simp)
    · intro h
      rcases h with ⟨l1, c, l2, heq, -, -⟩
      exfalso
      apply hlen
      rw [heq]
      simp

/-- C4 counterexample: on a non-empty log whose single record carries no
argument payload, with(x) fails (panic on the missing payload) and
not_with(x) also fails with the same panic instead of succeeding, so
not_with is not the exact negation of with on non-empty logs. -/
theorem claim_C4_counterexample :
    readItem (((run c4t).assert_that "k").2)
      (((run c4t).assert_that "k").1).item = [⟨none, none⟩] ∧
    chainOnceWith c4t "k" 5 7
      = Except.error "You didn\x27t log any arguments for your calls to k." ∧
    chainOnceNotWith c4t "k" 5 7
      = Except.error "You didn\x27t log any arguments for your calls to k." :=
  ⟨rfl, rfl, rfl⟩

/-- C4 (amended): on an empty log not_with(x) is vacuously true while
with(x) fails; on a non-empty log in which every record carries an argument
payload of the asserted type (so the shared scan cannot panic), not_with(x)
succeeds exactly when with(x) fails; when the scan panics (missing payload
or type mismatch before a match), with and not_with both fail. -/
theorem claim_C4 (s : TrackerState) (ma : MetaAssertion) (ty v : Nat) :
    (readItem s ma.item = [] →
      ma.not_with s ty v = Except.ok ma ∧
      isSuccess (ma.withArgs s ty v) = false) ∧
    (readItem s ma.item ≠ [] →
      (∀ c ∈ readItem s ma.item,
        Option.map Payload.ty c.arguments = some ty) →
      (isSuccess (ma.not_with s ty v) = true
        ↔ isSuccess (ma.withArgs s ty v) = false)) := by
  constructor
  · intro he
    constructor
    · simp [MetaAssertion.not_with, he]
    · simp [MetaAssertion.withArgs, he, isSuccess]
  · intro hne hall
    rcases scanArgs_no_panic ma.key ty v (readItem s ma.item) hall with ⟨b, hb⟩
    have hlen : (readItem s ma.item).length > 0 := List.length_pos.mpr hne
    cases b with
    | true => simp [MetaAssertion.not_with, MetaAssertion.withArgs, hlen, hb,
        isSuccess]
    | false => simp [MetaAssertion.not_with, MetaAssertion.withArgs, hlen, hb,
        isSuccess]

/-- Witness for C4 at an empty log and at a one-record log whose payload has
the asserted type but a different value. -/
theorem claim_C4_witness :
    (isSuccess ((⟨0, "k"⟩ : MetaAssertion).not_with
        (run [Op.log "k" ⟨some ⟨5, 7⟩, none⟩]) 5 9) = true
      ↔ isSuccess ((⟨0, "k"⟩ : MetaAssertion).withArgs
        (run [Op.log "k" ⟨some ⟨5, 7⟩, none⟩]) 5 9) = false) ∧
    ((⟨0, "k"⟩ : MetaAssertion).not_with TrackerState.init 5 9
        = Except.ok ⟨0, "k"⟩ ∧
      isSuccess ((⟨0, "k"⟩ : MetaAssertion).withArgs TrackerState.init 5 9)
        = false) :=
  ⟨(claim_C4 (run [Op.log "k" ⟨some ⟨5, 7⟩, none⟩]) ⟨0, "k"⟩ 5 9).2
      (by decide) (by decide),
   (claim_C4 TrackerState.init ⟨0, "k"⟩ 5 9).1 rfl⟩

/-- C8 counterexample: was_called_once on a never-called key raises the
message "k wasn't called." (with the assert_ne left/right decoration),
which names the key but does not report the expected call count — neither
the numeral 1 nor the word once occurs in it — refuting the claim that
every cardinality-check failure reports both expected and actual counts. -/
theorem claim_C8_counterexample :
    ((run ([] : List Op)).assert_that "k").1.was_called_once
      (((run ([] : List Op)).assert_that "k").2)
      = Except.error (neFail 0 0 "k wasn\x27t called.") ∧
    strContainsB (neFail 0 0 "k wasn\x27t called.") "1" = false ∧
    strContainsB (neFail 0 0 "k wasn\x27t called.") "once" = false :=
  ⟨rfl, rfl, rfl⟩

/-- C8 (amended): every failing cardinality check names the key;
wasnt_called reports the actual and the expected (0) counts;
was_called_times reports the expected and the actual counts in every
failure branch; was_called_once distinguishes the never-called case (the
fixed message naming the key, whose decoration shows the actual count 0 but
which omits the expected count) from the called-more-than-once case, which
reports the actual count and the expected count 1. -/
theorem claim_C8 (s : TrackerState) (a : Assertion) (n : Nat) (m : String) :
    (a.wasnt_called s = Except.error m →
      strContainsB m a.key = true ∧
      strContainsB m (Nat.repr (readItem s a.item).length) = true ∧
      strContainsB m (Nat.repr 0) = true) ∧
    (a.was_called_times s n = Except.error m →
      strContainsB m a.key = true ∧
      strContainsB m (Nat.repr n) = true ∧
      strContainsB m (Nat.repr (readItem s a.item).length) = true) ∧
    (a.was_called_once s = Except.error m →
      strContainsB m a.key = true ∧
      ((readItem s a.item).length = 0 →
        m = neFail 0 0 (a.key ++ " wasn\x27t called.")) ∧
      (1 < (readItem s a.item).length →
        strContainsB m (Nat.repr (readItem s a.item).length) = true ∧
        strContainsB m (Nat.repr 1) = true)) := by
  refine ⟨?_, ?_, ?_⟩
  · intro h
    unfold Assertion.wasnt_called at h
    by_cases h0 : (readItem s a.item).length = 0
    · rw [if_pos h0] at h
      exact absurd h (by simp)
    · rw [if_neg h0] at h
      injection h with hm
      subst hm
      refine ⟨?_, ?_, ?_⟩
      · exact contains_eqFail_msg _ _ _ _ (strContainsB_right _ _ _
          (strContainsB_right _ _ _ (strContainsB_self_pre _ _)))
      · exact contains_eqFail_left _ _ _
      · exact contains_eqFail_right _ _ _
  · intro h
    unfold Assertion.was_called_times at h
    by_cases h0 : (readItem s a.item).length = 0
    · rw [if_pos h0] at h
      injection h with hm
      subst hm
      refine ⟨?_, ?_, ?_⟩
      · exact contains_neFail_msg _ _ _ _ (strContainsB_right _ _ _
          (strContainsB_right _ _ _ (strContainsB_self_pre _ _)))
      · exact contains_neFail_msg _ _ _ _ (strContainsB_right _ _ _
          (strContainsB_left _ _ _ (strContainsB_self _)))
      · exact contains_neFail_left _ _ _
    · rw [if_neg h0] at h
      by_cases hlt : (readItem s a.item).length < n
      · rw [if_pos hlt] at h
        injection h with hm
        subst hm
        refine ⟨?_, ?_, ?_⟩
        · exact strContainsB_right _ _ _ (strContainsB_right _ _ _
            (strContainsB_right _ _ _ (strContainsB_right _ _ _
              (strContainsB_self_pre _ _))))
        · exact strContainsB_right _ _ _ (strContainsB_right _ _ _
            (strContainsB_right _ _ _ (strContainsB_left _ _ _
              (strContainsB_self _))))
        · exact strContainsB_right _ _ _ (strContainsB_left _ _ _
            (strContainsB_self _))
      · rw [if_neg hlt] at h
        by_cases heq : (readItem s a.item).length = n
        · rw [if_pos heq] at h
          exact absurd h (by simp)
        · rw [if_neg heq] at h
          injection h with hm
          subst hm
          refine ⟨?_, ?_, ?_⟩
          · exact contains_eqFail_msg _ _ _ _ (strContainsB_right _ _ _
              (strContainsB_right _ _ _ (strContainsB_right _ _ _
                (strContainsB_right _ _ _ (strContainsB_self_pre _ _)))))
          · exact contains_eqFail_right _ _ _
          · exact contains_eqFail_left _ _ _
  · intro h
    unfold Assertion.was_called_once at h
    by_cases h0 : (readItem s a.item).length = 0
    · rw [if_pos h0] at h
      injection h with hm
      subst hm
      refine ⟨?_, ?_, ?_⟩
      · exact contains_neFail_msg _ _ _ _ (strContainsB_self_pre _ _)
      · intro _
        rw [h0]
      · intro h1
        exact absurd h0 (by omega)
    · rw [if_neg h0] at h
      by_cases h1 : (readItem s a.item).length = 1
      · rw [if_pos h1] at h
        exact absurd h (by simp)
      · rw [if_neg h1] at h
        injection h with hm
        subst hm
        refine ⟨?_, ?_, ?_⟩
        · exact contains_eqFail_msg _ _ _ _ (strContainsB_right _ _ _
            (strContainsB_right _ _ _ (strContainsB_self_pre _ _)))
        · intro hz
          exact absurd hz h0
        · intro _
          exact ⟨contains_eqFail_left _ _ _, contains_eqFail_right _ _ _⟩

/-- Witness for C8: the was_called_times failure on a twice-logged key with
expectation 3 names the key and reports both counts. -/
theorem claim_C8_witness :
    strContainsB "k was called fewer than 3 times. Was called 2 times." "k"
      = true ∧
    strContainsB "k was called fewer than 3 times. Was called 2 times."
      (Nat.repr 3) = true ∧
    strContainsB "k was called fewer than 3 times. Was called 2 times."
      (Nat.repr 2) = true := by
  have h := (claim_C8
      (run [Op.log "k" ⟨none, none⟩, Op.log "k" ⟨none, none⟩]) ⟨0, "k"⟩ 3
      "k was called fewer than 3 times. Was called 2 times.").2.1 rfl
  exact h
